import Mathlib

/-!
A verification development for the nostr-proto data layer:
the event-kind taxonomy (src/types/event_kind.rs), the filter engine
(src/types/filter.rs) and the naddr TLV codec (src/types/naddr.rs),
shallowly embedded in Lean.  Machine integers are modelled as Nat with
explicit wrap-around (% 2^w) where the Rust code can overflow, Rust byte
buffers as List Nat, Rust strings as their UTF-8 byte lists, and fallible
operations as an explicit result type that also records a panic outcome.
-/

set_option maxHeartbeats 1000000
set_option maxRecDepth 100000

namespace NostrProto

/-- The EventKind enum of src/types/event_kind.rs: the named protocol kinds
in declaration order, plus the four range catch-alls and Other, each
carrying the original u32 (here a Nat). -/
inductive EventKind where
  | Metadata
  | TextNote
  | RecommendRelay
  | ContactList
  | EncryptedDirectMessage
  | EventDeletion
  | Repost
  | Reaction
  | BadgeAward
  | Seal
  | DmChat
  | GenericRepost
  | ChannelCreation
  | ChannelMetadata
  | ChannelMessage
  | ChannelHideMessage
  | ChannelMuteUser
  | PublicChatReserved45
  | PublicChatReserved46
  | PublicChatReserved47
  | PublicChatReserved48
  | PublicChatReserved49
  | Timestamp
  | GiftWrap
  | FileMetadata
  | LiveChatMessage
  | ProblemTracker
  | Reporting
  | Label
  | CommunityPost
  | CommunityPostApproval
  | JobFeedback
  | ZapGoal
  | ZapRequest
  | Zap
  | Highlights
  | MuteList
  | PinList
  | RelayList
  | BookmarkList
  | CommunityList
  | PublicChatsList
  | BlockedRelaysList
  | SearchRelaysList
  | InterestsList
  | UserEmojiList
  | WalletInfo
  | Auth
  | WalletRequest
  | WalletResponse
  | NostrConnect
  | HttpAuth
  | FollowSets
  | GenericSets
  | RelaySets
  | BookmarkSets
  | CurationSets
  | ProfileBadges
  | BadgeDefinition
  | InterestSets
  | CreateUpdateStall
  | CreateUpdateProduct
  | LongFormContent
  | DraftLongFormContent
  | EmojiSets
  | AppSpecificData
  | LiveEvent
  | UserStatus
  | ClassifiedListing
  | DraftClassifiedListing
  | DateBasedCalendarEvent
  | TimeBasedCalendarEvent
  | Calendar
  | CalendarEventRsvp
  | HandlerRecommendation
  | HandlerInformation
  | CommunityDefinition
  | JobRequest (u : Nat)
  | JobResult (u : Nat)
  | Replaceable (u : Nat)
  | Ephemeral (u : Nat)
  | Other (u : Nat)

namespace EventKind

/-- impl From of EventKind for u32 (src/types/event_kind.rs): the numeric
code of a named kind, or the carried number of a catch-all variant. -/
def toU32 : EventKind → Nat
  | .Metadata => 0
  | .TextNote => 1
  | .RecommendRelay => 2
  | .ContactList => 3
  | .EncryptedDirectMessage => 4
  | .EventDeletion => 5
  | .Repost => 6
  | .Reaction => 7
  | .BadgeAward => 8
  | .Seal => 13
  | .DmChat => 14
  | .GenericRepost => 16
  | .ChannelCreation => 40
  | .ChannelMetadata => 41
  | .ChannelMessage => 42
  | .ChannelHideMessage => 43
  | .ChannelMuteUser => 44
  | .PublicChatReserved45 => 45
  | .PublicChatReserved46 => 46
  | .PublicChatReserved47 => 47
  | .PublicChatReserved48 => 48
  | .PublicChatReserved49 => 49
  | .Timestamp => 1040
  | .GiftWrap => 1059
  | .FileMetadata => 1063
  | .LiveChatMessage => 1311
  | .ProblemTracker => 1971
  | .Reporting => 1984
  | .Label => 1985
  | .CommunityPost => 4549
  | .CommunityPostApproval => 4550
  | .JobFeedback => 7000
  | .ZapGoal => 9041
  | .ZapRequest => 9734
  | .Zap => 9735
  | .Highlights => 9802
  | .MuteList => 10000
  | .PinList => 10001
  | .RelayList => 10002
  | .BookmarkList => 10003
  | .CommunityList => 10004
  | .PublicChatsList => 10005
  | .BlockedRelaysList => 10006
  | .SearchRelaysList => 10007
  | .InterestsList => 10015
  | .UserEmojiList => 10030
  | .WalletInfo => 13194
  | .Auth => 22242
  | .WalletRequest => 23194
  | .WalletResponse => 23195
  | .NostrConnect => 24133
  | .HttpAuth => 27235
  | .FollowSets => 30000
  | .GenericSets => 30001
  | .RelaySets => 30002
  | .BookmarkSets => 30003
  | .CurationSets => 30004
  | .ProfileBadges => 30008
  | .BadgeDefinition => 30009
  | .InterestSets => 30015
  | .CreateUpdateStall => 30017
  | .CreateUpdateProduct => 30018
  | .LongFormContent => 30023
  | .DraftLongFormContent => 30024
  | .EmojiSets => 30030
  | .AppSpecificData => 30078
  | .LiveEvent => 30311
  | .UserStatus => 30315
  | .ClassifiedListing => 30402
  | .DraftClassifiedListing => 30403
  | .DateBasedCalendarEvent => 31922
  | .TimeBasedCalendarEvent => 31923
  | .Calendar => 31924
  | .CalendarEventRsvp => 31925
  | .HandlerRecommendation => 31989
  | .HandlerInformation => 31990
  | .CommunityDefinition => 34550
  | .JobRequest u => u
  | .JobResult u => u
  | .Replaceable u => u
  | .Ephemeral u => u
  | .Other u => u

/-- The fixed table of named kinds with their protocol-assigned u32
codes, in declaration order (the WELL_KNOWN_KINDS table of the
define_event_kinds macro paired with each kind's numeric value). -/
def namedTable : List (Nat × EventKind) :=
  [   (0, Metadata),
   (1, TextNote),
   (2, RecommendRelay),
   (3, ContactList),
   (4, EncryptedDirectMessage),
   (5, EventDeletion),
   (6, Repost),
   (7, Reaction),
   (8, BadgeAward),
   (13, Seal),
   (14, DmChat),
   (16, GenericRepost),
   (40, ChannelCreation),
   (41, ChannelMetadata),
   (42, ChannelMessage),
   (43, ChannelHideMessage),
   (44, ChannelMuteUser),
   (45, PublicChatReserved45),
   (46, PublicChatReserved46),
   (47, PublicChatReserved47),
   (48, PublicChatReserved48),
   (49, PublicChatReserved49),
   (1040, Timestamp),
   (1059, GiftWrap),
   (1063, FileMetadata),
   (1311, LiveChatMessage),
   (1971, ProblemTracker),
   (1984, Reporting),
   (1985, Label),
   (4549, CommunityPost),
   (4550, CommunityPostApproval),
   (7000, JobFeedback),
   (9041, ZapGoal),
   (9734, ZapRequest),
   (9735, Zap),
   (9802, Highlights),
   (10000, MuteList),
   (10001, PinList),
   (10002, RelayList),
   (10003, BookmarkList),
   (10004, CommunityList),
   (10005, PublicChatsList),
   (10006, BlockedRelaysList),
   (10007, SearchRelaysList),
   (10015, InterestsList),
   (10030, UserEmojiList),
   (13194, WalletInfo),
   (22242, Auth),
   (23194, WalletRequest),
   (23195, WalletResponse),
   (24133, NostrConnect),
   (27235, HttpAuth),
   (30000, FollowSets),
   (30001, GenericSets),
   (30002, RelaySets),
   (30003, BookmarkSets),
   (30004, CurationSets),
   (30008, ProfileBadges),
   (30009, BadgeDefinition),
   (30015, InterestSets),
   (30017, CreateUpdateStall),
   (30018, CreateUpdateProduct),
   (30023, LongFormContent),
   (30024, DraftLongFormContent),
   (30030, EmojiSets),
   (30078, AppSpecificData),
   (30311, LiveEvent),
   (30315, UserStatus),
   (30402, ClassifiedListing),
   (30403, DraftClassifiedListing),
   (31922, DateBasedCalendarEvent),
   (31923, TimeBasedCalendarEvent),
   (31924, Calendar),
   (31925, CalendarEventRsvp),
   (31989, HandlerRecommendation),
   (31990, HandlerInformation),
   (34550, CommunityDefinition)]

/-- impl From of u32 for EventKind (src/types/event_kind.rs): the named
codes are matched first (in declaration order, here as a first-match
table lookup), then the range guards.  NOTE the source range guards are
the half-open Rust ranges 5_000..5_999, 6_000..6_999, 10_000..20_000
and 20_000..30_000, so 5999 and 6999 fall through to Other. -/
def fromU32 (u : Nat) : EventKind :=
  match namedTable.find? (fun p => p.1 = u) with
  | some p => p.2
  | none =>
    if 5000 <= u && u < 5999 then .JobRequest u
    else if 6000 <= u && u < 6999 then .JobResult u
    else if 10000 <= u && u < 20000 then .Replaceable u
    else if 20000 <= u && u < 30000 then .Ephemeral u
    else .Other u

/-- EventKind::is_job_request: numeric membership in the inclusive range
5000..=5999. -/
def is_job_request (k : EventKind) : Bool :=
  decide (5000 ≤ k.toU32 ∧ k.toU32 ≤ 5999)

/-- EventKind::is_job_result: numeric membership in the inclusive range
6000..=6999. -/
def is_job_result (k : EventKind) : Bool :=
  decide (6000 ≤ k.toU32 ∧ k.toU32 ≤ 6999)

/-- EventKind::is_replaceable: Metadata, ContactList, or numeric membership
in 10000..=19999 or 30000..=39999. -/
def is_replaceable (k : EventKind) : Bool :=
  match k with
  | .Metadata => true
  | .ContactList => true
  | _ =>
    decide (10000 ≤ k.toU32 ∧ k.toU32 ≤ 19999) ||
    decide (30000 ≤ k.toU32 ∧ k.toU32 ≤ 39999)

/-- Variant discriminant used only to build decidable equality for the
large enum (the derive handler overflows on it): 0 for named kinds,
1..5 for the five payload-carrying catch-all variants. -/
def tagOf : EventKind → Nat
  | .JobRequest _ => 1
  | .JobResult _ => 2
  | .Replaceable _ => 3
  | .Ephemeral _ => 4
  | .Other _ => 5
  | _ => 0

/-- Retraction for the (tagOf, toU32) encoding of EventKind. -/
def ofTagNum (t u : Nat) : EventKind :=
  match t with
  | 1 => .JobRequest u
  | 2 => .JobResult u
  | 3 => .Replaceable u
  | 4 => .Ephemeral u
  | 5 => .Other u
  | _ => fromU32 u

theorem ofTagNum_retract : ∀ k : EventKind, ofTagNum (tagOf k) (toU32 k) = k := by
  intro k
  cases k <;> rfl

instance : DecidableEq EventKind := fun a b =>
  if h : tagOf a = tagOf b ∧ toU32 a = toU32 b then
    .isTrue (by
      have ha := ofTagNum_retract a
      have hb := ofTagNum_retract b
      rw [← ha, ← hb, h.1, h.2])
  else
    .isFalse (fun he => h (by rw [he]; exact ⟨rfl, rfl⟩))

end EventKind

/-- Modelled from the spec: the crate-wide Error enum (declared in the
repository's error module, which is not part of the provided sources).
Only the constructors used by src/types/naddr.rs are modelled; their
payloads (strings, byte positions) are omitted as no claim depends on
them.  Distinct constructors of a Rust enum are distinct values. -/
inductive Err where
  | WrongBech32
  | InvalidProfile
  | InvalidNAddr
  | NonReplaceableAddr
  | WrongLengthKindBytes
  | Utf8
deriving DecidableEq

/-- Outcome of running a piece of Rust code: a normal value, an early
return with an error, or a panic (index out of bounds / debug overflow). -/
inductive RustResult (α : Type) where
  | panicked
  | error (e : Err)
  | ok (a : α)
deriving DecidableEq

/-- Validity of a byte list as UTF-8, as checked by std::str::from_utf8:
the standard table, rejecting overlong forms, surrogates and values
above 0x10FFFF.  Rust strings are modelled as their UTF-8 byte lists,
so a value is a Rust String exactly when this holds. -/
def utf8Valid : List Nat → Bool
  | [] => true
  | b :: rest =>
    if b < 0x80 then utf8Valid rest
    else if b < 0xC2 then false
    else if b < 0xE0 then
      match rest with
      | b1 :: r => decide (0x80 ≤ b1 ∧ b1 < 0xC0) && utf8Valid r
      | _ => false
    else if b < 0xF0 then
      match rest with
      | b1 :: b2 :: r =>
        (if b = 0xE0 then decide (0xA0 ≤ b1 ∧ b1 < 0xC0)
         else if b = 0xED then decide (0x80 ≤ b1 ∧ b1 < 0xA0)
         else decide (0x80 ≤ b1 ∧ b1 < 0xC0)) &&
        decide (0x80 ≤ b2 ∧ b2 < 0xC0) && utf8Valid r
      | _ => false
    else if b < 0xF5 then
      match rest with
      | b1 :: b2 :: b3 :: r =>
        (if b = 0xF0 then decide (0x90 ≤ b1 ∧ b1 < 0xC0)
         else if b = 0xF4 then decide (0x80 ≤ b1 ∧ b1 < 0x90)
         else decide (0x80 ≤ b1 ∧ b1 < 0xC0)) &&
        decide (0x80 ≤ b2 ∧ b2 < 0xC0) &&
        decide (0x80 ≤ b3 ∧ b3 < 0xC0) && utf8Valid r
      | _ => false
    else false

/-- Modelled from the spec: PublicKey::from_bytes (the PublicKey value
type lives outside the provided sources).  Per spec section 4.2 a
malformed author key is one of "wrong length or invalid curve point";
the model checks the 32-byte length constraint, curve-point validation
being the external signer capability's concern (spec section 1). -/
def pkFromBytes (raw : List Nat) : Option (List Nat) :=
  if raw.length = 32 then some raw else none

/-- An address pointer (src/types/naddr.rs): d-tag bytes, relay hint
byte strings, kind, and the author's 32-byte public key. -/
structure NAddr where
  d : List Nat
  relays : List (List Nat)
  kind : EventKind
  author : List Nat
deriving DecidableEq

/-- impl PartialEq for NAddr: equality over (d, kind, author) only;
the relays field is deliberately ignored. -/
def naddrEq (a b : NAddr) : Prop :=
  a.d = b.d ∧ a.kind = b.kind ∧ a.author = b.author

/-- Big-endian bytes of a u32, as produced by u32::to_be_bytes. -/
def beBytes (u : Nat) : List Nat :=
  [u / 2 ^ 24 % 256, u / 2 ^ 16 % 256, u / 2 ^ 8 % 256, u % 256]

/-- u32::from_be_bytes on a 4-byte slice. -/
def beU32 : List Nat → Nat
  | [a, b, c, d] => ((a * 256 + b) * 256 + c) * 256 + d
  | _ => 0

/-- NAddr::as_bech32_string, up to the bech32 wrapping: the TLV byte
payload handed to bech32::encode.  Each length byte is the value's
length truncated to u8 (len as u8), while all value bytes are appended
regardless; field order is d-tag, relays, kind (4 bytes BE), author. -/
def asBech32Payload (n : NAddr) : List Nat :=
  [0, n.d.length % 256] ++ n.d
    ++ (n.relays.map (fun r => [1, r.length % 256] ++ r)).flatten
    ++ [3, 4] ++ beBytes n.kind.toU32
    ++ [2, 32] ++ n.author

/-- The mutable scan state of NAddr::try_from_bech32_string's TLV loop. -/
structure ScanState where
  d : Option (List Nat)
  relays : List (List Nat)
  kind : Option EventKind
  author : Option (List Nat)
deriving DecidableEq

/-- The empty initial scan state (maybe_d / relays / maybe_kind /
maybe_author before the loop). -/
def initScan : ScanState := ⟨none, [], none, none⟩

/-- One arm of the match on the field type in the TLV loop of
NAddr::try_from_bech32_string, acting on the raw value bytes:
type 0 stores the d-tag (UTF-8 checked, error propagated), type 1
appends a relay hint (UTF-8 checked), type 2 stores the author only
when the public key parses (silently dropped otherwise), type 3
requires exactly 4 bytes and stores the kind, anything else is
skipped. -/
def processField (st : ScanState) (ty : Nat) (raw : List Nat) : RustResult ScanState :=
  if ty = 0 then
    if utf8Valid raw then .ok { st with d := some raw } else .error .Utf8
  else if ty = 1 then
    if utf8Valid raw then .ok { st with relays := st.relays ++ [raw] } else .error .Utf8
  else if ty = 2 then
    match pkFromBytes raw with
    | some pk => .ok { st with author := some pk }
    | none => .ok st
  else if ty = 3 then
    if raw.length = 4 then .ok { st with kind := some (EventKind.fromU32 (beU32 raw)) }
    else .error .WrongLengthKindBytes
  else .ok st

/-- Fuel-indexed form of the TLV scan loop so that concrete runs reduce
by kernel computation.  With fuel at least the buffer length the fuel
never runs out (each step consumes at least two bytes); the fuel-zero
arm coincides with the empty-buffer break.  The loop breaks with fewer
than two bytes remaining, errors with InvalidProfile when a declared
length overruns the buffer, and otherwise dispatches on the type byte. -/
def tlvScanF : Nat → ScanState → List Nat → RustResult ScanState
  | 0, st, _ => .ok st
  | _ + 1, st, [] => .ok st
  | _ + 1, st, [_] => .ok st
  | fuel + 1, st, ty :: len :: rest =>
    if rest.length < len then .error .InvalidProfile
    else
      match processField st ty (rest.take len) with
      | .ok st' => tlvScanF fuel st' (rest.drop len)
      | .error e => .error e
      | .panicked => .panicked

/-- The TLV scan loop of NAddr::try_from_bech32_string on a buffer with
at least two bytes (the under-two-byte entry is handled by the caller,
see decodeNaddrTlv). -/
def tlvScan (st : ScanState) (tlv : List Nat) : RustResult ScanState :=
  tlvScanF tlv.length st tlv

/-- NAddr::try_from_bech32_string after a successful bech32 decode with
the right prefix, applied to the TLV payload bytes.  A payload of fewer
than two bytes panics: the loop guard computes tlv.len() - 2 on usize,
which wraps (or aborts in debug builds), after which tlv[pos] or
tlv[pos + 1] indexes out of bounds.  After the scan, all of d-tag, kind
and author must be present (else InvalidNAddr) and the kind must be
replaceable (else NonReplaceableAddr). -/
def decodeNaddrTlv (tlv : List Nat) : RustResult NAddr :=
  if tlv.length < 2 then .panicked
  else
    match tlvScan initScan tlv with
    | .panicked => .panicked
    | .error e => .error e
    | .ok st =>
      match st.d, st.kind, st.author with
      | some d, some k, some a =>
        if k.is_replaceable then .ok ⟨d, st.relays, k, a⟩
        else .error .NonReplaceableAddr
      | _, _, _ => .error .InvalidNAddr

/-- NAddr::try_from_bech32_string modulo the external bech32 codec: the
function of the human-readable prefix and data payload returned by
bech32::decode.  A prefix other than naddr is rejected with
WrongBech32. -/
def naddrFromDecoded (hrp : String) (payload : List Nat) : RustResult NAddr :=
  if hrp ≠ "naddr" then .error .WrongBech32
  else decodeNaddrTlv payload

/-- The filter's tag dimension: the BTreeMap from single character to
value list, modelled as an association list kept sorted by key (the
canonical form a BTreeMap iterates in), values being strings as
character lists. -/
abbrev TagMap : Type := List (Char × List (List Char))

/-- BTreeMap::get on the tag map. -/
def tmFind? (c : Char) : TagMap → Option (List (List Char))
  | [] => none
  | (k, w) :: rest => if k = c then some w else tmFind? c rest

/-- BTreeMap::insert on the tag map: replace the value at an existing
key, else insert at the sorted position. -/
def tmInsert (c : Char) (vs : List (List Char)) : TagMap → TagMap
  | [] => [(c, vs)]
  | (k, w) :: rest =>
    if c < k then (c, vs) :: (k, w) :: rest
    else if c = k then (c, vs) :: rest
    else (k, w) :: tmInsert c vs rest

/-- BTreeMap::remove on the tag map. -/
def tmRemove (c : Char) : TagMap → TagMap
  | [] => []
  | (k, w) :: rest => if k = c then rest else (k, w) :: tmRemove c rest

/-- Iterator::position on a list: the index of the first element
satisfying the predicate. -/
def listPosition (p : α → Bool) : List α → Option Nat
  | [] => none
  | a :: l => if p a then some 0 else (listPosition p l).map (· + 1)

/-- Vec::swap_remove: replace the element at the index with the last
element and drop the last slot. -/
def swapRemove (l : List α) (i : Nat) : List α :=
  match l.getLast? with
  | none => l
  | some last => (l.set i last).dropLast

/-- Modelled from the spec: the Event entity (declared in the versioned
module, outside the provided sources), restricted to the fields that
src/types/filter.rs reads: a 32-byte id, a 32-byte author public key,
an integer Unixtime, and the kind.  The signature, tags and content
play no role in any claim here. -/
structure Event where
  id : List Nat
  pubkey : List Nat
  created_at : Int
  kind : EventKind

/-- One lowercase hex digit. -/
def hexDigit (n : Nat) : Char :=
  if n < 10 then Char.ofNat (48 + n) else Char.ofNat (87 + n)

/-- Modelled from the spec: the IdHex / PublicKeyHex rendering of a
32-byte value as a lowercase hex character string (the conversion the
matcher applies to the event's id and pubkey before the membership
tests). -/
def toHexChars (bs : List Nat) : List Char :=
  (bs.map (fun b => [hexDigit (b / 16), hexDigit (b % 16)])).flatten

/-- The Filter struct of src/types/filter.rs: id hex strings, author
hex strings, kinds, the tag map, inclusive since/until bounds
(Unixtime as Int) and the query limit. -/
structure Filter where
  ids : List (List Char)
  authors : List (List Char)
  kinds : List EventKind
  tags : TagMap
  since : Option Int
  until_ : Option Int
  limit : Option Nat
deriving DecidableEq

namespace Filter

/-- Filter::new / Default::default: all dimensions empty or absent. -/
def new : Filter := ⟨[], [], [], [], none, none, none⟩

/-- Filter::add_id: push the id unless it is already present. -/
def add_id (f : Filter) (idh : List Char) : Filter :=
  if idh ∈ f.ids then f else { f with ids := f.ids ++ [idh] }

/-- Filter::add_author: push the public key hex unless present. -/
def add_author (f : Filter) (pkh : List Char) : Filter :=
  if pkh ∈ f.authors then f else { f with authors := f.authors ++ [pkh] }

/-- Filter::add_event_kind: push the kind unless present. -/
def add_event_kind (f : Filter) (k : EventKind) : Filter :=
  if k ∈ f.kinds then f else { f with kinds := f.kinds ++ [k] }

/-- Filter::add_tag_value: entry(letter).and_modify(push value)
.or_insert(vec of the value).  The push is unconditional: no presence
check is made on the existing value list. -/
def add_tag_value (f : Filter) (letter : Char) (value : List Char) : Filter :=
  { f with
    tags :=
      match tmFind? letter f.tags with
      | some w => tmInsert letter (w ++ [value]) f.tags
      | none => tmInsert letter [value] f.tags }

/-- Filter::del_tag_value: swap_remove the first occurrence under the
letter, and remove the letter's entry entirely when its list became
empty. -/
def del_tag_value (f : Filter) (letter : Char) (value : List Char) : Filter :=
  { f with
    tags :=
      match tmFind? letter f.tags with
      | some w =>
        match listPosition (fun x => x = value) w with
        | some i =>
          if swapRemove w i = [] then tmRemove letter f.tags
          else tmInsert letter (swapRemove w i) f.tags
        | none =>
          if w = [] then tmRemove letter f.tags
          else tmInsert letter w f.tags
      | none => f.tags }

/-- Filter::set_tag_values: BTreeMap::insert of the whole value list. -/
def set_tag_values (f : Filter) (letter : Char) (values : List (List Char)) : Filter :=
  { f with tags := tmInsert letter values f.tags }

/-- Filter::clear_tag_values: BTreeMap::remove of the letter. -/
def clear_tag_values (f : Filter) (letter : Char) : Filter :=
  { f with tags := tmRemove letter f.tags }

/-- Filter::event_matches_incomplete: the early-return chain over ids,
authors, kinds, since and until.  The tag dimension is not checked
(the source leaves it TBD). -/
def event_matches_incomplete (f : Filter) (e : Event) : Bool :=
  if f.ids ≠ [] ∧ toHexChars e.id ∉ f.ids then false
  else if f.authors ≠ [] ∧ toHexChars e.pubkey ∉ f.authors then false
  else if f.kinds ≠ [] ∧ e.kind ∉ f.kinds then false
  else if f.since.any (fun s => decide (e.created_at < s)) then false
  else if f.until_.any (fun u => decide (e.created_at > u)) then false
  else true

end Filter

/-- The per-dimension conjunction of spec section 4.3, written from the
spec's words for comparison with event_matches_incomplete: each
dimension with an empty constraint set trivially passes; non-empty ids,
authors and kinds require membership; since and until are inclusive
bounds.  (The spec's tag dimension is an open question the source never
implemented and claim C4 does not mention, so it is absent here too.) -/
def matchesSpec (f : Filter) (e : Event) : Prop :=
  (f.ids = [] ∨ toHexChars e.id ∈ f.ids) ∧
  (f.authors = [] ∨ toHexChars e.pubkey ∈ f.authors) ∧
  (f.kinds = [] ∨ e.kind ∈ f.kinds) ∧
  (∀ s, f.since = some s → s ≤ e.created_at) ∧
  (∀ u, f.until_ = some u → e.created_at ≤ u)

/-- One mutation of the filter's tag dimension, for stating invariants
over arbitrary operation sequences. -/
inductive TagOp where
  | add (letter : Char) (value : List Char)
  | del (letter : Char) (value : List Char)
  | set (letter : Char) (values : List (List Char))
  | clear (letter : Char)

/-- Apply one tag mutation to a filter. -/
def applyTagOp (f : Filter) : TagOp → Filter
  | .add c v => f.add_tag_value c v
  | .del c v => f.del_tag_value c v
  | .set c vs => f.set_tag_values c vs
  | .clear c => f.clear_tag_values c

/-- The tag-map invariant of claim C9: every letter present in the map
carries a non-empty value list. -/
def tagsNonempty (f : Filter) : Prop :=
  ∀ p ∈ f.tags, p.2 ≠ ([] : List (List Char))

instance : DecidablePred tagsNonempty := fun f => by
  unfold tagsNonempty; infer_instance

/-- A tag mutation that never stores an empty list directly:
set_tag_values with a non-empty list, or any other operation. -/
def tagOpGood : TagOp → Prop
  | .set _ vs => vs ≠ []
  | _ => True

instance : DecidablePred tagOpGood := fun op =>
  match op with
  | .add _ _ => .isTrue trivial
  | .del _ _ => .isTrue trivial
  | .set _ vs => (inferInstance : Decidable (vs ≠ []))
  | .clear _ => .isTrue trivial

/-- The representation invariant of the BTreeMap model: entries strictly
sorted by key (hence keys pairwise distinct). -/
def tmWF (m : TagMap) : Prop :=
  m.Pairwise (fun a b => a.1 < b.1)

instance : DecidablePred tmWF := fun m => by
  unfold tmWF; infer_instance

/-- The tags visitor of deserialize_tags (src/types/filter.rs): keys of
the exact shape hash-then-one-character are inserted under that
character, every other key is skipped; entries are processed in arrival
order, later entries overwriting earlier ones at the same character. -/
def tagKeyChar : List Char → Option Char
  | ['#', c] => some c
  | _ => none

/-- Modelled from the spec: a buffered JSON value as the flatten
machinery hands it to the tags visitor (the JSON wire shapes of spec
section 6 come from the external serde_json crate). -/
inductive Json where
  | str (s : List Char)
  | num (n : Int)
  | bool (b : Bool)
  | null
  | arr (items : List Json)
  | obj (fields : List (List Char × Json))

/-- All-strings reading of a JSON array body: the element-wise part of
deserializing Vec<String>. -/
def jsonStrings : List Json → Option (List (List Char))
  | [] => some []
  | .str s :: rest => (jsonStrings rest).map (fun l => s :: l)
  | _ :: _ => none

/-- Modelled from the spec: deserializing a Vec<String> out of a
buffered JSON value, as the visitor's next_entry type ascription
(String, Vec<String>) demands for every leftover entry: it succeeds
exactly on a JSON array whose elements are all strings. -/
def decodeStringArray : Json → Option (List (List Char))
  | .arr items => jsonStrings items
  | _ => none

/-- TagsVisitor::visit_map over the sequence of leftover (key, value)
entries serde feeds it, starting from the accumulated map: each
next_entry call first deserializes the value as Vec<String> — a failure
there aborts the whole deserialization (the question-mark operator) —
and only then the hash-letter key check decides between inserting and
silently dropping the entry. -/
def visitTagsRun (m : TagMap) : List (List Char × Json) → Option TagMap
  | [] => some m
  | (k, v) :: rest =>
    match decodeStringArray v with
    | none => none
    | some vs =>
      match tagKeyChar k with
      | some c => visitTagsRun (tmInsert c vs m) rest
      | none => visitTagsRun m rest

/-- TagsVisitor::visit_map from the empty map. -/
def visitTagsMap (entries : List (List Char × Json)) : Option TagMap :=
  visitTagsRun [] entries

/-- A concrete 32-byte public key used by concrete decode runs: the
x-coordinate of the secp256k1 generator point. -/
def pkGen : List Nat :=
  [121, 190, 102, 126, 249, 220, 187, 172, 85, 160, 98, 149, 206, 135, 11, 7,
   2, 155, 252, 219, 45, 206, 40, 217, 89, 242, 129, 91, 22, 248, 23, 152]

/-! ## Helper lemmas -/

theorem tlvScanF_congr :
    ∀ (f1 f2 : Nat) (st : ScanState) (l : List Nat),
      l.length ≤ f1 → l.length ≤ f2 → tlvScanF f1 st l = tlvScanF f2 st l := by
  intro f1
  induction f1 with
  | zero =>
    intro f2 st l h1 _
    have hl : l = [] := List.eq_nil_of_length_eq_zero (Nat.le_zero.mp h1)
    subst hl
    cases f2 <;> rfl
  | succ n ih =>
    intro f2 st l h1 h2
    match l, f2 with
    | [], f2 => cases f2 <;> rfl
    | [x], 0 => simp at h2
    | [x], m + 1 => rfl
    | ty :: len :: rest, 0 => simp at h2
    | ty :: len :: rest, m + 1 =>
      simp only [tlvScanF]
      split
      · rfl
      · cases hpf : processField st ty (rest.take len) with
        | ok st' =>
          apply ih
          · have := List.length_drop len rest
            simp only [List.length_cons] at h1
            omega
          · have := List.length_drop len rest
            simp only [List.length_cons] at h2
            omega
        | error e => rfl
        | panicked => rfl

theorem tlvScan_cons₂ (st : ScanState) (ty len : Nat) (rest : List Nat) :
    tlvScan st (ty :: len :: rest) =
      if rest.length < len then .error .InvalidProfile
      else
        match processField st ty (rest.take len) with
        | .ok st' => tlvScan st' (rest.drop len)
        | .error e => .error e
        | .panicked => .panicked := by
  show tlvScanF (rest.length + 1 + 1) st (ty :: len :: rest) = _
  simp only [tlvScanF]
  split
  · rfl
  · cases hpf : processField st ty (rest.take len) with
    | ok st' =>
      exact tlvScanF_congr _ _ _ _ (by have := List.length_drop len rest; omega)
        (le_refl _)
    | error e => rfl
    | panicked => rfl

/-- Processing one well-formed TLV field whose length byte equals the
raw value's length steps the scan by exactly that field. -/
theorem tlvScan_field (st : ScanState) (ty : Nat) (raw rest : List Nat) :
    tlvScan st (ty :: raw.length :: (raw ++ rest)) =
      match processField st ty raw with
      | .ok st' => tlvScan st' rest
      | .error e => .error e
      | .panicked => .panicked := by
  rw [tlvScan_cons₂]
  have h1 : ¬ (raw ++ rest).length < raw.length := by
    simp only [List.length_append]; omega
  rw [if_neg h1]
  have h2 : (raw ++ rest).take raw.length = raw := by simp
  have h3 : (raw ++ rest).drop raw.length = rest := by simp
  rw [h2, h3]

theorem tlvScan_nil (st : ScanState) : tlvScan st [] = .ok st := rfl

/-! ## Claim theorems -/

/-- C1: for every u32 value k, EventKind::from(k) followed by
u32::from round-trips back to k, including the catch-all variants. -/
theorem event_kind_u32_roundtrip (k : Nat) (_hk : k < 2 ^ 32) :
    EventKind.toU32 (EventKind.fromU32 k) = k := by
  unfold EventKind.fromU32
  cases h : EventKind.namedTable.find? (fun p => p.1 = k) with
  | some p =>
    have hmem := List.mem_of_find?_eq_some h
    have hpred := List.find?_some h
    have htab : ∀ p ∈ EventKind.namedTable, EventKind.toU32 p.2 = p.1 := by decide
    simp only [decide_eq_true_eq] at hpred
    rw [htab p hmem, hpred]
  | none => split_ifs <;> rfl

/-- Witness for C1 at concrete inputs in each region of the mapping. -/
theorem event_kind_u32_roundtrip_witness :
    (10002 : Nat) < 2 ^ 32 ∧ EventKind.toU32 (EventKind.fromU32 10002) = 10002 :=
  ⟨by decide, event_kind_u32_roundtrip 10002 (by decide)⟩

/-- C2, evaluated at the claim's sample points and at the inputs where
the code contradicts its own doc comments: the From impl's half-open
range guards send 5999 and 6999 to Other, even though the variant doc
comments say the JobRequest range is 5000-5999 and the JobResult range
is 6000-6999 and the is_job_request / is_job_result predicates use the
inclusive ranges (so the Other-classified 5999 still answers true to
is_job_request). -/
theorem event_kind_range_classification_eval :
    EventKind.fromU32 10002 = .RelayList ∧
    EventKind.fromU32 15000 = .Replaceable 15000 ∧
    EventKind.fromU32 25000 = .Ephemeral 25000 ∧
    EventKind.fromU32 5500 = .JobRequest 5500 ∧
    EventKind.fromU32 99999 = .Other 99999 ∧
    EventKind.fromU32 5999 = .Other 5999 ∧
    EventKind.fromU32 6999 = .Other 6999 ∧
    (EventKind.fromU32 5999).is_job_request = true ∧
    (EventKind.fromU32 6999).is_job_result = true := by
  refine ⟨rfl, rfl, rfl, rfl, rfl, rfl, rfl, ?_, ?_⟩ <;> decide

/-- C3: the decode loop panics on a decoded TLV payload of fewer than
two bytes (the guard computes tlv.len() - 2 on usize, wrapping for
lengths 0 and 1, after which the buffer is indexed out of bounds), so
try_from_bech32_string does not return a typed error for every input:
a checksum-valid naddr string with an empty data part crashes it. -/
theorem naddr_decode_short_payload_panics :
    decodeNaddrTlv [] = .panicked ∧
    decodeNaddrTlv [0] = .panicked ∧
    naddrFromDecoded "naddr" [] = .panicked := by
  exact ⟨rfl, rfl, rfl⟩

theorem event_matches_iff (f : Filter) (e : Event) :
    f.event_matches_incomplete e = true ↔ matchesSpec f e := by
  obtain ⟨ids, authors, kinds, tags, since, until_, limit⟩ := f
  unfold Filter.event_matches_incomplete matchesSpec
  cases since <;> cases until_ <;>
    (simp only [Option.any, decide_eq_true_eq]
     split_ifs <;> simp_all <;> tauto)

/-- C4: event_matches_incomplete is the AND of the per-dimension tests
(empty dimension passes, non-empty ids/authors/kinds require
membership, since/until are inclusive): it agrees with the
spec-side conjunction matchesSpec; the default filter matches every
event; and a since-only (resp. until-only) filter accepts exactly the
events with timestamp at least (resp. at most) the bound, so since = T
rejects a T - 1 event and accepts a T event, and until = T accepts T
and rejects T + 1. -/
theorem filter_match_dimensions :
    (∀ f e, f.event_matches_incomplete e = true ↔ matchesSpec f e) ∧
    (∀ e, Filter.new.event_matches_incomplete e = true) ∧
    (∀ T e, ({ Filter.new with since := some T } : Filter).event_matches_incomplete e
      = true ↔ T ≤ e.created_at) ∧
    (∀ T e, ({ Filter.new with until_ := some T } : Filter).event_matches_incomplete e
      = true ↔ e.created_at ≤ T) := by
  refine ⟨event_matches_iff, ?_, ?_, ?_⟩
  · intro e
    rw [event_matches_iff]
    refine ⟨Or.inl rfl, Or.inl rfl, Or.inl rfl, ?_, ?_⟩ <;> intro x hx <;> cases hx
  · intro T e
    rw [event_matches_iff]
    unfold matchesSpec Filter.new
    simp
  · intro T e
    rw [event_matches_iff]
    unfold matchesSpec Filter.new
    simp

/-- C5 counterexample: add_tag_value is not a no-op on an already
present value.  On a filter whose tag map holds the single value x
under the letter t, adding x again duplicates it, so the claim that
every add mutation (including add_tag_value) leaves the filter
unchanged when the value is present is false. -/
theorem filter_add_tag_value_not_idempotent :
    Filter.add_tag_value ⟨[], [], [], [('t', [['x']])], none, none, none⟩ 't' ['x']
      ≠ ⟨[], [], [], [('t', [['x']])], none, none, none⟩ ∧
    (Filter.add_tag_value ⟨[], [], [], [('t', [['x']])], none, none, none⟩ 't' ['x']).tags
      = [('t', [['x'], ['x']])] := by
  constructor
  · decide
  · decide

theorem tmFind?_tmInsert_self (c : Char) (vs : List (List Char)) :
    ∀ m : TagMap, tmFind? c (tmInsert c vs m) = some vs := by
  intro m
  induction m with
  | nil => simp [tmInsert, tmFind?]
  | cons p rest ih =>
    obtain ⟨k, w⟩ := p
    unfold tmInsert
    split_ifs with hlt heq
    · unfold tmFind?
      rw [if_pos rfl]
    · unfold tmFind?
      rw [if_pos rfl]
    · unfold tmFind?
      rw [if_neg (fun h => heq h.symm)]
      exact ih

/-- C5 as amended: add_id, add_author and add_event_kind are no-ops
when the value is already present (in particular adding the same id
twice leaves ids at length 1), while add_tag_value always appends the
value to the letter's existing list, presence notwithstanding. -/
theorem filter_add_ops_amended :
    (∀ (f : Filter) (idh : List Char), idh ∈ f.ids → f.add_id idh = f) ∧
    (∀ (f : Filter) (pkh : List Char), pkh ∈ f.authors → f.add_author pkh = f) ∧
    (∀ (f : Filter) (k : EventKind), k ∈ f.kinds → f.add_event_kind k = f) ∧
    (∀ (f : Filter) (c : Char) (v : List Char) (vs : List (List Char)),
      tmFind? c f.tags = some vs →
        tmFind? c (f.add_tag_value c v).tags = some (vs ++ [v])) := by
  refine ⟨?_, ?_, ?_, ?_⟩
  · intro f idh h; unfold Filter.add_id; rw [if_pos h]
  · intro f pkh h; unfold Filter.add_author; rw [if_pos h]
  · intro f k h; unfold Filter.add_event_kind; rw [if_pos h]
  · intro f c v vs h
    unfold Filter.add_tag_value
    rw [h]
    exact tmFind?_tmInsert_self c (vs ++ [v]) f.tags

/-- Witness for C5's amended statement at concrete filters. -/
theorem filter_add_ops_amended_witness :
    Filter.add_id ⟨[['a']], [], [], [], none, none, none⟩ ['a']
      = ⟨[['a']], [], [], [], none, none, none⟩ ∧
    Filter.add_author ⟨[], [['b']], [], [], none, none, none⟩ ['b']
      = ⟨[], [['b']], [], [], none, none, none⟩ ∧
    Filter.add_event_kind ⟨[], [], [.TextNote], [], none, none, none⟩ .TextNote
      = ⟨[], [], [.TextNote], [], none, none, none⟩ ∧
    tmFind? 't'
      (Filter.add_tag_value ⟨[], [], [], [('t', [['x']])], none, none, none⟩ 't' ['y']).tags
      = some [['x'], ['y']] :=
  ⟨filter_add_ops_amended.1 _ ['a'] (by decide),
   filter_add_ops_amended.2.1 _ ['b'] (by decide),
   filter_add_ops_amended.2.2.1 _ .TextNote (by decide),
   filter_add_ops_amended.2.2.2 _ 't' ['y'] [['x']] (by decide)⟩

theorem tmGood_insert (c : Char) (vs : List (List Char)) (hvs : vs ≠ []) :
    ∀ m : TagMap, (∀ p ∈ m, p.2 ≠ ([] : List (List Char))) →
      ∀ p ∈ tmInsert c vs m, p.2 ≠ ([] : List (List Char)) := by
  intro m
  induction m with
  | nil =>
    intro _ p hp
    unfold tmInsert at hp
    rw [List.mem_singleton] at hp
    rw [hp]
    exact hvs
  | cons q rest ih =>
    intro hg p hp
    obtain ⟨k, w⟩ := q
    unfold tmInsert at hp
    split_ifs at hp
    · simp only [List.mem_cons] at hp
      rcases hp with h | h | h
      · rw [h]; exact hvs
      · rw [h]; exact hg (k, w) (List.mem_cons_self _ _)
      · exact hg p (List.mem_cons_of_mem _ h)
    · simp only [List.mem_cons] at hp
      rcases hp with h | h
      · rw [h]; exact hvs
      · exact hg p (List.mem_cons_of_mem _ h)
    · simp only [List.mem_cons] at hp
      rcases hp with h | h
      · rw [h]; exact hg (k, w) (List.mem_cons_self _ _)
      · exact ih (fun q hq => hg q (List.mem_cons_of_mem _ hq)) p h

theorem tmRemove_subset (c : Char) :
    ∀ (m : TagMap) (p : Char × List (List Char)), p ∈ tmRemove c m → p ∈ m := by
  intro m
  induction m with
  | nil => intro p hp; cases hp
  | cons q rest ih =>
    intro p hp
    obtain ⟨k, w⟩ := q
    unfold tmRemove at hp
    split_ifs at hp
    · exact List.mem_cons_of_mem _ hp
    · simp only [List.mem_cons] at hp
      rcases hp with h | h
      · rw [h]; exact List.mem_cons_self _ _
      · exact List.mem_cons_of_mem _ (ih p h)

theorem tagsNonempty_applyTagOp (f : Filter) (op : TagOp)
    (hf : tagsNonempty f) (hop : tagOpGood op) : tagsNonempty (applyTagOp f op) := by
  cases op with
  | add c v =>
    intro p hp
    have ht : (applyTagOp f (TagOp.add c v)).tags =
        (match tmFind? c f.tags with
         | some w => tmInsert c (w ++ [v]) f.tags
         | none => tmInsert c [v] f.tags) := rfl
    rw [ht] at hp
    split at hp
    · exact tmGood_insert c _ (by simp) f.tags hf p hp
    · exact tmGood_insert c _ (by simp) f.tags hf p hp
  | del c v =>
    intro p hp
    have ht : (applyTagOp f (TagOp.del c v)).tags =
        (match tmFind? c f.tags with
         | some w =>
           match listPosition (fun x => x = v) w with
           | some i =>
             if swapRemove w i = [] then tmRemove c f.tags
             else tmInsert c (swapRemove w i) f.tags
           | none =>
             if w = [] then tmRemove c f.tags
             else tmInsert c w f.tags
         | none => f.tags) := rfl
    rw [ht] at hp
    split at hp
    · split at hp
      · split_ifs at hp with hw
        · exact hf p (tmRemove_subset c f.tags p hp)
        · exact tmGood_insert c _ hw f.tags hf p hp
      · split_ifs at hp with hw
        · exact hf p (tmRemove_subset c f.tags p hp)
        · exact tmGood_insert c _ hw f.tags hf p hp
    · exact hf p hp
  | set c vs =>
    intro p hp
    have ht : (applyTagOp f (TagOp.set c vs)).tags = tmInsert c vs f.tags := rfl
    rw [ht] at hp
    exact tmGood_insert c vs hop f.tags hf p hp
  | clear c =>
    intro p hp
    have ht : (applyTagOp f (TagOp.clear c)).tags = tmRemove c f.tags := rfl
    rw [ht] at hp
    exact hf p (tmRemove_subset c f.tags p hp)

theorem tmFind?_eq_none (c : Char) :
    ∀ m : TagMap, (∀ p ∈ m, p.1 ≠ c) → tmFind? c m = none := by
  intro m
  induction m with
  | nil => intro _; rfl
  | cons q rest ih =>
    intro h
    obtain ⟨k, w⟩ := q
    unfold tmFind?
    rw [if_neg (h (k, w) (List.mem_cons_self _ _))]
    exact ih (fun p hp => h p (List.mem_cons_of_mem _ hp))

theorem tmFind?_tmRemove_self (c : Char) :
    ∀ m : TagMap, tmWF m → tmFind? c (tmRemove c m) = none := by
  intro m
  induction m with
  | nil => intro _; rfl
  | cons q rest ih =>
    intro hwf
    obtain ⟨k, w⟩ := q
    unfold tmWF at hwf
    rw [List.pairwise_cons] at hwf
    unfold tmRemove
    split_ifs with hk
    · subst hk
      exact tmFind?_eq_none k rest (fun p hp => ne_of_gt (hwf.1 p hp))
    · unfold tmFind?
      rw [if_neg hk]
      exact ih hwf.2

/-- C9 counterexample: set_tag_values with an empty value list stores an
empty entry in the tag map, so the no-empty-entries invariant does not
survive every sequence of the four tag mutations. -/
theorem filter_set_tag_values_empty_entry :
    (Filter.set_tag_values Filter.new 't' []).tags = [('t', [])] ∧
    ¬ tagsNonempty (Filter.set_tag_values Filter.new 't' []) := by
  constructor
  · decide
  · decide

/-- C9 as amended: over any sequence of add_tag_value, del_tag_value,
set_tag_values and clear_tag_values in which set_tag_values is never
given an empty value list, every letter present in the tag map keeps a
non-empty value list (set_tag_values with an empty list installs an
empty entry, as the counterexample shows); and deleting the last value
under a letter removes that letter's entry entirely. -/
theorem filter_tag_map_no_empty_entries_amended :
    (∀ (ops : List TagOp) (f : Filter), tagsNonempty f →
      (∀ op ∈ ops, tagOpGood op) → tagsNonempty (ops.foldl applyTagOp f)) ∧
    (∀ (f : Filter) (c : Char) (v : List Char), tmWF f.tags →
      tmFind? c f.tags = some [v] →
        tmFind? c (f.del_tag_value c v).tags = none) := by
  constructor
  · intro ops
    induction ops with
    | nil => intro f hf _; exact hf
    | cons op rest ih =>
      intro f hf hops
      exact ih (applyTagOp f op)
        (tagsNonempty_applyTagOp f op hf (hops op (List.mem_cons_self _ _)))
        (fun o ho => hops o (List.mem_cons_of_mem _ ho))
  · intro f c v hwf hfind
    have hidx : listPosition (fun x => x = v) [v] = some 0 := by
      simp [listPosition]
    have hsw : swapRemove [v] 0 = [] := by
      unfold swapRemove
      simp
    have ht : (f.del_tag_value c v).tags = tmRemove c f.tags := by
      unfold Filter.del_tag_value
      simp [hfind, hidx, hsw]
    rw [ht]
    exact tmFind?_tmRemove_self c f.tags hwf

/-- Witness for C9's amended statement: a concrete good op sequence
keeps the invariant, and deleting the only value removes the entry. -/
theorem filter_tag_map_no_empty_entries_amended_witness :
    tagsNonempty
      (List.foldl applyTagOp Filter.new
        [TagOp.add 't' ['x'], TagOp.set 'p' [['q']], TagOp.del 't' ['x']]) ∧
    tmFind? 't'
      (Filter.del_tag_value ⟨[], [], [], [('t', [['x']])], none, none, none⟩ 't' ['x']).tags
      = none :=
  ⟨filter_tag_map_no_empty_entries_amended.1 _ Filter.new (by decide) (by decide),
   filter_tag_map_no_empty_entries_amended.2
     ⟨[], [], [], [('t', [['x']])], none, none, none⟩ 't' ['x'] (by decide) (by decide)⟩

theorem tmFind?_tmInsert_ne (c c' : Char) (vs : List (List Char)) (hne : c' ≠ c) :
    ∀ m : TagMap, tmFind? c (tmInsert c' vs m) = tmFind? c m := by
  intro m
  induction m with
  | nil => simp [tmInsert, tmFind?, hne]
  | cons q rest ih =>
    obtain ⟨k, w⟩ := q
    unfold tmInsert
    split_ifs with hlt heq
    · unfold tmFind?
      rw [if_neg hne]
      rfl
    · unfold tmFind?
      rw [if_neg hne, if_neg (fun h => hne (heq.trans h))]
    · unfold tmFind?
      split_ifs with hk
      · rfl
      · exact ih

theorem visitTagsRun_skip (k : List Char) (v : Json) (vs : List (List Char))
    (post : List (List Char × Json))
    (hk : tagKeyChar k = none) (hv : decodeStringArray v = some vs) :
    ∀ (pre : List (List Char × Json)) (m : TagMap),
      visitTagsRun m (pre ++ (k, v) :: post) = visitTagsRun m (pre ++ post) := by
  intro pre
  induction pre with
  | nil =>
    intro m
    simp only [List.nil_append]
    have hstep : visitTagsRun m ((k, v) :: post)
        = (match decodeStringArray v with
           | none => none
           | some vs =>
             match tagKeyChar k with
             | some c => visitTagsRun (tmInsert c vs m) post
             | none => visitTagsRun m post) := rfl
    rw [hstep, hv, hk]
  | cons e rest ih =>
    intro m
    obtain ⟨k2, v2⟩ := e
    simp only [List.cons_append]
    unfold visitTagsRun
    cases hd : decodeStringArray v2 with
    | none => rfl
    | some w =>
      cases hk2 : tagKeyChar k2 with
      | some c => exact ih (tmInsert c w m)
      | none => exact ih m

theorem visitTagsRun_fail (k : List Char) (v : Json)
    (post : List (List Char × Json)) (hv : decodeStringArray v = none) :
    ∀ (pre : List (List Char × Json)) (m : TagMap),
      visitTagsRun m (pre ++ (k, v) :: post) = none := by
  intro pre
  induction pre with
  | nil =>
    intro m
    simp only [List.nil_append]
    unfold visitTagsRun
    rw [hv]
  | cons e rest ih =>
    intro m
    obtain ⟨k2, v2⟩ := e
    simp only [List.cons_append]
    unfold visitTagsRun
    cases hd : decodeStringArray v2 with
    | none => rfl
    | some w =>
      cases hk2 : tagKeyChar k2 with
      | some c => exact ih (tmInsert c w m)
      | none => exact ih m

theorem visitTagsRun_mem (k : List Char) (v : Json) (c : Char)
    (hk : tagKeyChar k = some c) :
    ∀ (entries : List (List Char × Json)) (m m' : TagMap),
      visitTagsRun m entries = some m' →
      ((k, v) ∈ entries ∨ (tmFind? c m).isSome = true) →
      (tmFind? c m').isSome = true := by
  intro entries
  induction entries with
  | nil =>
    intro m m' hrun h
    unfold visitTagsRun at hrun
    cases hrun
    rcases h with h | h
    · cases h
    · exact h
  | cons e rest ih =>
    intro m m' hrun h
    obtain ⟨k2, v2⟩ := e
    unfold visitTagsRun at hrun
    cases hd : decodeStringArray v2 with
    | none =>
      rw [hd] at hrun
      simp at hrun
    | some w =>
      rw [hd] at hrun
      cases hk2 : tagKeyChar k2 with
      | some c2 =>
        rw [hk2] at hrun
        rcases h with h | h
        · simp only [List.mem_cons] at h
          rcases h with h | h
          · have hkk : k = k2 := by
              rw [Prod.mk.injEq] at h
              exact h.1
            have hcc : c2 = c := by
              rw [← hkk] at hk2
              rw [hk2] at hk
              exact Option.some.inj hk
            apply ih _ _ hrun
            right
            rw [hcc, tmFind?_tmInsert_self]
            rfl
          · exact ih _ _ hrun (Or.inl h)
        · apply ih _ _ hrun
          right
          by_cases hcc : c2 = c
          · rw [hcc, tmFind?_tmInsert_self]
            rfl
          · rw [tmFind?_tmInsert_ne c c2 w hcc]
            exact h
      | none =>
        rw [hk2] at hrun
        rcases h with h | h
        · simp only [List.mem_cons] at h
          rcases h with h | h
          · exfalso
            have hkk : k = k2 := by
              rw [Prod.mk.injEq] at h
              exact h.1
            rw [← hkk] at hk2
            rw [hk2] at hk
            cases hk
          · exact ih _ _ hrun (Or.inl h)
        · exact ih _ _ hrun (Or.inr h)

/-- C10 counterexample: a leftover top-level key that is not of the
hash-letter form but whose value is a bare JSON string (search paired
with the string word) makes next_entry's Vec<String> deserialization
fail and the question mark aborts the whole Filter deserialization,
refuting the claim that such a key is always silently discarded with
deserialization still succeeding. -/
theorem filter_tags_value_parse_failure :
    tagKeyChar ['s', 'e', 'a', 'r', 'c', 'h'] = none ∧
    visitTagsMap [(['s', 'e', 'a', 'r', 'c', 'h'], Json.str ['w', 'o', 'r', 'd'])]
      = none := by
  constructor
  · rfl
  · rfl

/-- C10 as amended: a leftover top-level key that is not exactly a hash
sign followed by exactly one character is silently discarded only when
its value still deserializes as a JSON array of strings — such an entry
leaves the visitor's result unchanged, contributing no tag entry — and
whenever the visitor succeeds, every entry whose key has the exact
hash-letter form is stored under that letter; but any leftover entry,
hash-shaped or not, whose value is not a JSON array of strings fails
the whole deserialization. -/
theorem filter_tags_deserialization_amended :
    (∀ (pre post : List (List Char × Json)) (k : List Char) (v : Json)
       (vs : List (List Char)),
      tagKeyChar k = none → decodeStringArray v = some vs →
        visitTagsMap (pre ++ (k, v) :: post) = visitTagsMap (pre ++ post)) ∧
    (∀ (pre post : List (List Char × Json)) (k : List Char) (v : Json),
      decodeStringArray v = none →
        visitTagsMap (pre ++ (k, v) :: post) = none) ∧
    (∀ (entries : List (List Char × Json)) (m' : TagMap),
      visitTagsMap entries = some m' →
      ∀ (k : List Char) (v : Json) (c : Char),
        (k, v) ∈ entries → tagKeyChar k = some c →
          (tmFind? c m').isSome = true) := by
  refine ⟨?_, ?_, ?_⟩
  · intro pre post k v vs hk hv
    exact visitTagsRun_skip k v vs post hk hv pre []
  · intro pre post k v hv
    exact visitTagsRun_fail k v post hv pre []
  · intro entries m' hrun k v c hmem hk
    exact visitTagsRun_mem k v c hk entries [] m' hrun (Or.inl hmem)

/-- Witness for C10's amended statement: the ids key with an
array-of-strings value is discarded in front of a kept hash-e entry; a
hash-e key with a bare string value aborts the run; and the hash-e key
of a succeeding run is stored under e. -/
theorem filter_tags_deserialization_amended_witness :
    visitTagsMap
        [(['i', 'd', 's'], Json.arr [Json.str ['z']]),
         (['#', 'e'], Json.arr [Json.str ['x']])]
      = visitTagsMap [(['#', 'e'], Json.arr [Json.str ['x']])] ∧
    visitTagsMap [(['#', 'e'], Json.str ['x'])] = none ∧
    (tmFind? 'e' [('e', [['x']])]).isSome = true := by
  refine ⟨?_, ?_, ?_⟩
  · have h := filter_tags_deserialization_amended.1
      [] [(['#', 'e'], Json.arr [Json.str ['x']])]
      ['i', 'd', 's'] (Json.arr [Json.str ['z']]) [['z']] rfl rfl
    simpa using h
  · exact filter_tags_deserialization_amended.2.1 [] [] ['#', 'e'] (Json.str ['x']) rfl
  · exact filter_tags_deserialization_amended.2.2
      [(['#', 'e'], Json.arr [Json.str ['x']])] [('e', [['x']])] rfl
      ['#', 'e'] (Json.arr [Json.str ['x']]) 'e' (List.mem_cons_self _ _) rfl

theorem processField_skip (st : ScanState) (ty : Nat) (raw : List Nat)
    (h0 : ty ≠ 0) (h1 : ty ≠ 1) (h2 : ty ≠ 2) (h3 : ty ≠ 3) :
    processField st ty raw = .ok st := by
  unfold processField
  rw [if_neg h0, if_neg h1, if_neg h2, if_neg h3]

/-- C7: once the TLV scan has completed without a hard error, the
decode fails with the structural missing-required-field error
InvalidNAddr whenever any of d-tag, kind or author was not recovered;
with all three present it fails with the distinct semantic error
NonReplaceableAddr exactly when the kind is not replaceable (TextNote,
say), and succeeds otherwise. -/
theorem naddr_decode_requires_fields (tlv : List Nat) (st : ScanState)
    (hlen : 2 ≤ tlv.length) (hscan : tlvScan initScan tlv = .ok st) :
    ((st.d = none ∨ st.kind = none ∨ st.author = none) →
      decodeNaddrTlv tlv = .error .InvalidNAddr) ∧
    (∀ (d : List Nat) (k : EventKind) (a : List Nat),
      st.d = some d → st.kind = some k → st.author = some a →
        (k.is_replaceable = false → decodeNaddrTlv tlv = .error .NonReplaceableAddr) ∧
        (k.is_replaceable = true → decodeNaddrTlv tlv = .ok ⟨d, st.relays, k, a⟩)) ∧
    Err.InvalidNAddr ≠ Err.NonReplaceableAddr := by
  have hdecode : decodeNaddrTlv tlv =
      (match st.d, st.kind, st.author with
       | some d, some k, some a =>
         if k.is_replaceable then .ok ⟨d, st.relays, k, a⟩
         else .error .NonReplaceableAddr
       | _, _, _ => .error .InvalidNAddr) := by
    unfold decodeNaddrTlv
    rw [if_neg (by omega), hscan]
  refine ⟨?_, ?_, by decide⟩
  · intro h
    rw [hdecode]
    cases hd : st.d <;> cases hk : st.kind <;> cases ha : st.author <;>
      first
        | rfl
        | (exfalso; rcases h with h | h | h <;> simp_all)
  · intro d k a hd hk ha
    rw [hdecode, hd, hk, ha]
    constructor <;> intro hrep <;> simp [hrep]

/-- Witness for C7: a buffer with d-tag and kind but no author hits the
structural error, and a well-formed buffer whose kind is TextNote hits
the semantic error. -/
theorem naddr_decode_requires_fields_witness :
    decodeNaddrTlv ([0, 1, 120] ++ [3, 4, 0, 0, 117, 71]) = .error .InvalidNAddr ∧
    decodeNaddrTlv ([0, 1, 120] ++ [3, 4, 0, 0, 0, 1] ++ [2, 32] ++ pkGen)
      = .error .NonReplaceableAddr :=
  ⟨(naddr_decode_requires_fields ([0, 1, 120] ++ [3, 4, 0, 0, 117, 71])
      ⟨some [120], [], some .LongFormContent, none⟩ (by decide) (by decide)).1
      (by right; right; rfl),
   ((naddr_decode_requires_fields ([0, 1, 120] ++ [3, 4, 0, 0, 0, 1] ++ [2, 32] ++ pkGen)
      ⟨some [120], [], some .TextNote, some pkGen⟩ (by decide) (by decide)).2.1
      [120] .TextNote pkGen rfl rfl rfl).1 (by decide)⟩

/-- C8: the TLV scan tolerates non-essential junk: a field whose type
code is none of 0, 1, 2, 3 is consumed without storing anything or
erring; an author field whose value does not parse as a public key is
silently dropped; and a concrete buffer interleaving such junk with
valid d-tag, kind and author fields still decodes successfully. -/
theorem naddr_decode_tolerates_junk :
    (∀ (st : ScanState) (ty len : Nat) (rest : List Nat),
      ty ≠ 0 → ty ≠ 1 → ty ≠ 2 → ty ≠ 3 → len ≤ rest.length →
        tlvScan st (ty :: len :: rest) = tlvScan st (rest.drop len)) ∧
    (∀ (st : ScanState) (raw : List Nat), pkFromBytes raw = none →
      processField st 2 raw = .ok st) ∧
    (decodeNaddrTlv
        ([0, 1, 120] ++ [9, 2, 5, 6] ++ [2, 3, 1, 2, 3]
          ++ [3, 4, 0, 0, 117, 71] ++ [2, 32] ++ pkGen)
      = .ok ⟨[120], [], .LongFormContent, pkGen⟩) := by
  refine ⟨?_, ?_, by decide⟩
  · intro st ty len rest h0 h1 h2 h3 hlen
    rw [tlvScan_cons₂, if_neg (not_lt.mpr hlen),
      processField_skip st ty (rest.take len) h0 h1 h2 h3]
  · intro st raw h
    unfold processField
    rw [if_neg (by decide), if_neg (by decide), if_pos rfl, h]

/-- Witness for C8: skipping a concrete unknown-type field, and
dropping a concrete 3-byte author value. -/
theorem naddr_decode_tolerates_junk_witness :
    tlvScan initScan [9, 2, 5, 6] = .ok initScan ∧
    processField initScan 2 [1, 2, 3] = .ok initScan := by
  constructor
  · have h := naddr_decode_tolerates_junk.1 initScan 9 2 [5, 6]
      (by decide) (by decide) (by decide) (by decide) (by decide)
    rw [h]
    rfl
  · exact naddr_decode_tolerates_junk.2.1 initScan [1, 2, 3] (by decide)

theorem tlvScan_field_ok (st st' : ScanState) (ty len : Nat) (raw rest : List Nat)
    (hl : raw.length = len) (hpf : processField st ty raw = .ok st') :
    tlvScan st (ty :: len :: (raw ++ rest)) = tlvScan st' rest := by
  subst hl
  rw [tlvScan_field, hpf]

/-- C6 as amended: encoding the NAddr with d = hello (bytes 104 101 108
108 111), kind LongFormContent, author P and relays R1, R2 and decoding
it back succeeds with a value equal to the original, for every 32-byte
public key P and every pair of relay URLs whose UTF-8 byte lengths are
at most 255 (the TLV length byte is the length truncated to u8, so a
longer relay URL corrupts the stream, as the counterexample shows); the
decoded value is naddrEq-equal to the original, naddrEq being the
source's PartialEq over (d, kind, author) that ignores relays. -/
theorem naddr_roundtrip_amended (P R1 R2 : List Nat)
    (hP : P.length = 32)
    (h1 : R1.length ≤ 255) (h2 : R2.length ≤ 255)
    (hu1 : utf8Valid R1 = true) (hu2 : utf8Valid R2 = true) :
    naddrFromDecoded "naddr"
      (asBech32Payload ⟨[104, 101, 108, 108, 111], [R1, R2], .LongFormContent, P⟩)
      = .ok ⟨[104, 101, 108, 108, 111], [R1, R2], .LongFormContent, P⟩ ∧
    (∀ n' : NAddr,
      naddrFromDecoded "naddr"
          (asBech32Payload ⟨[104, 101, 108, 108, 111], [R1, R2], .LongFormContent, P⟩)
        = .ok n' →
      naddrEq n' ⟨[104, 101, 108, 108, 111], [R1, R2], .LongFormContent, P⟩) := by
  have hmain : naddrFromDecoded "naddr"
        (asBech32Payload ⟨[104, 101, 108, 108, 111], [R1, R2], .LongFormContent, P⟩)
        = .ok ⟨[104, 101, 108, 108, 111], [R1, R2], .LongFormContent, P⟩ := by
    have hm1 : R1.length % 256 = R1.length := Nat.mod_eq_of_lt (by omega)
    have hm2 : R2.length % 256 = R2.length := Nat.mod_eq_of_lt (by omega)
    have hpay : asBech32Payload ⟨[104, 101, 108, 108, 111], [R1, R2], .LongFormContent, P⟩
        = 0 :: 5 :: ([104, 101, 108, 108, 111] ++
            (1 :: R1.length :: (R1 ++
              (1 :: R2.length :: (R2 ++
                (3 :: 4 :: ([0, 0, 117, 71] ++
                  (2 :: 32 :: (P ++ [])))))))) ) := by
      unfold asBech32Payload beBytes
      norm_num [hm1, hm2, EventKind.toU32]
    have hs1 : tlvScan initScan
        (0 :: 5 :: ([104, 101, 108, 108, 111] ++
            (1 :: R1.length :: (R1 ++
              (1 :: R2.length :: (R2 ++
                (3 :: 4 :: ([0, 0, 117, 71] ++
                  (2 :: 32 :: (P ++ [])))))))) ))
        = tlvScan ⟨some [104, 101, 108, 108, 111], [], none, none⟩
            (1 :: R1.length :: (R1 ++
              (1 :: R2.length :: (R2 ++
                (3 :: 4 :: ([0, 0, 117, 71] ++
                  (2 :: 32 :: (P ++ [])))))))) :=
      tlvScan_field_ok _ _ 0 5 _ _ rfl rfl
    have hs2 : tlvScan ⟨some [104, 101, 108, 108, 111], [], none, none⟩
            (1 :: R1.length :: (R1 ++
              (1 :: R2.length :: (R2 ++
                (3 :: 4 :: ([0, 0, 117, 71] ++
                  (2 :: 32 :: (P ++ []))))))))
        = tlvScan ⟨some [104, 101, 108, 108, 111], [R1], none, none⟩
              (1 :: R2.length :: (R2 ++
                (3 :: 4 :: ([0, 0, 117, 71] ++
                  (2 :: 32 :: (P ++ [])))))) := by
      apply tlvScan_field_ok _ _ 1 R1.length _ _ rfl
      unfold processField
      rw [if_neg (by decide), if_pos rfl, if_pos hu1]
      rfl
    have hs3 : tlvScan ⟨some [104, 101, 108, 108, 111], [R1], none, none⟩
              (1 :: R2.length :: (R2 ++
                (3 :: 4 :: ([0, 0, 117, 71] ++
                  (2 :: 32 :: (P ++ []))))))
        = tlvScan ⟨some [104, 101, 108, 108, 111], [R1, R2], none, none⟩
                (3 :: 4 :: ([0, 0, 117, 71] ++
                  (2 :: 32 :: (P ++ [])))) := by
      apply tlvScan_field_ok _ _ 1 R2.length _ _ rfl
      unfold processField
      rw [if_neg (by decide), if_pos rfl, if_pos hu2]
      rfl
    have hs4 : tlvScan ⟨some [104, 101, 108, 108, 111], [R1, R2], none, none⟩
                (3 :: 4 :: ([0, 0, 117, 71] ++
                  (2 :: 32 :: (P ++ []))))
        = tlvScan ⟨some [104, 101, 108, 108, 111], [R1, R2], some .LongFormContent, none⟩
                  (2 :: 32 :: (P ++ [])) :=
      tlvScan_field_ok _ _ 3 4 _ _ rfl rfl
    have hs5 : tlvScan ⟨some [104, 101, 108, 108, 111], [R1, R2], some .LongFormContent, none⟩
                  (2 :: 32 :: (P ++ []))
        = tlvScan ⟨some [104, 101, 108, 108, 111], [R1, R2], some .LongFormContent, some P⟩
                  [] := by
      apply tlvScan_field_ok _ _ 2 32 _ _ hP
      unfold processField pkFromBytes
      rw [if_neg (by decide), if_neg (by decide), if_pos rfl, if_pos hP]
    have hscan : tlvScan initScan
        (asBech32Payload ⟨[104, 101, 108, 108, 111], [R1, R2], .LongFormContent, P⟩)
        = .ok ⟨some [104, 101, 108, 108, 111], [R1, R2], some .LongFormContent, some P⟩ := by
      rw [hpay, hs1, hs2, hs3, hs4, hs5]
      rfl
    have hlen : ¬ (asBech32Payload
        ⟨[104, 101, 108, 108, 111], [R1, R2], .LongFormContent, P⟩).length < 2 := by
      rw [hpay]
      simp
    unfold naddrFromDecoded
    rw [if_neg (by simp)]
    unfold decodeNaddrTlv
    rw [if_neg hlen, hscan]
    rfl
  refine ⟨hmain, ?_⟩
  intro n' h
  rw [hmain] at h
  cases h
  exact ⟨rfl, rfl, rfl⟩

/-- Witness for C6's amended statement at a concrete key and two short
relay URLs. -/
theorem naddr_roundtrip_amended_witness :
    naddrFromDecoded "naddr"
      (asBech32Payload
        ⟨[104, 101, 108, 108, 111], [[119, 115, 115], [98]], .LongFormContent, pkGen⟩)
      = .ok ⟨[104, 101, 108, 108, 111], [[119, 115, 115], [98]], .LongFormContent, pkGen⟩ :=
  (naddr_roundtrip_amended pkGen [119, 115, 115] [98]
    (by decide) (by decide) (by decide) (by decide) (by decide)).1

/-- C6 counterexample: with a relay URL of 256 bytes (256 times the
byte 97) the encoder writes a length byte of 0 (256 mod 256) while
appending all 256 value bytes, so the decoder misreads the stream and
fails with InvalidProfile instead of round-tripping, refuting the
for-every-relay-URLs reading of the claim. -/
theorem naddr_roundtrip_failure_long_relay :
    naddrFromDecoded "naddr"
      (asBech32Payload
        ⟨[104, 101, 108, 108, 111], [List.replicate 256 97, [98]], .LongFormContent, pkGen⟩)
      = .error .InvalidProfile := by
  decide


end NostrProto
